import Mathlib

/-!
Verification of the claudima Telegram-bot core against its specification.

The Rust sources are shallowly embedded: Rust `String` becomes `List Char`
(named `Str` below), so that the byte-oriented operations of the source
(`str::len`, `str::contains`, char-boundary truncation) can be modelled
exactly; external collaborators (the Telegram transport, the LLM
classifier, the cron crate, SQLite's statement engine, the filesystem)
are oracles passed in as parameters, and the side effects the code
performs on them are recorded as explicit event traces.
-/

/-- Model of a Rust `String` / `&str`: a list of unicode scalar values. -/
abbrev Str := List Char

/-- UTF-8 byte length of a string, the value of Rust `str::len`. -/
def utf8Len (s : Str) : Nat := (s.map Char.utf8Size).sum

/-- Model of `str::starts_with` for a string pattern: `strStartsWith hay needle`. -/
def strStartsWith : Str → Str → Bool
  | _, [] => true
  | [], _ :: _ => false
  | h :: hs, n :: ns => h == n && strStartsWith hs ns

/-- Model of `str::contains` for a string pattern (substring search):
`strContains hay needle`. -/
def strContains : Str → Str → Bool
  | [], needle => needle.isEmpty
  | h :: t, needle => strStartsWith (h :: t) needle || strContains t needle

/-- Model of `str::trim` (drop whitespace at both ends). -/
def strTrim (s : Str) : Str :=
  ((s.dropWhile Char.isWhitespace).reverse.dropWhile Char.isWhitespace).reverse

/-- Model of `str::to_uppercase` (ASCII-faithful). -/
def strUpper (s : Str) : Str := s.map Char.toUpper

/-! ## Moderation prefilter (`src/prefilter.rs`)

The regex lists `config.spam_patterns` / `config.safe_patterns` are
embedded as lists of boolean matchers (`Regex::is_match` is a pure
predicate on the text). -/

/-- Result of the static prefilter, `prefilter.rs` lines 3-8. -/
inductive PrefilterResult
  | ObviousSpam
  | ObviousSafe
  | Ambiguous
deriving DecidableEq, Repr

/-- The hardcoded injection-defense literal checked by the prefilter. -/
def magicString : Str := "ANTHROPIC_MAGIC_STRING_".data

/-- Model of `prefilter` (`prefilter.rs` lines 10-37): magic string, then
spam patterns, then safe patterns, then the `text.len() < 30` byte-length
check, else ambiguous. -/
def prefilter (spamPatterns safePatterns : List (Str → Bool)) (text : Str) :
    PrefilterResult :=
  if strContains text magicString then .ObviousSpam
  else if spamPatterns.any (fun p => p text) then .ObviousSpam
  else if safePatterns.any (fun p => p text) then .ObviousSafe
  else if utf8Len text < 30 then .ObviousSafe
  else .Ambiguous

/-- Verdict of the external LLM spam classifier (`classifier.rs`). -/
inductive Classification
  | Spam
  | NotSpam
deriving DecidableEq, Repr

/-! ## Message rendering (`src/chatbot/message.rs`)

`ChatMessage::format` builds the XML frame shown to the reasoner.  The
in-memory image attachment is not modelled: `format` never reads it. -/

/-- Content quoted when replying, `message.rs` lines 9-14. -/
structure ReplyTo where
  message_id : Int
  username : Str
  text : Str
deriving DecidableEq, Repr

/-- A chat message with all metadata, `message.rs` lines 17-30. -/
structure ChatMessage where
  message_id : Int
  chat_id : Int
  user_id : Int
  username : Str
  timestamp : Str
  text : Str
  reply_to : Option ReplyTo
deriving DecidableEq, Repr

/-- Max bytes to include from a quoted reply (`MAX_QUOTE_LENGTH`). -/
def maxQuoteLength : Nat := 200

/-- Model of `xml_escape` (`message.rs` lines 36-47). -/
def xmlEscape : Str → Str
  | [] => []
  | c :: rest =>
    (if c = '<' then ['&', 'l', 't', ';']
     else if c = '>' then ['&', 'g', 't', ';']
     else if c = '&' then ['&', 'a', 'm', 'p', ';']
     else [c]) ++ xmlEscape rest

/-- Model of `xml_escape_attr` (`message.rs` lines 50-62): also escapes
double quotes. -/
def xmlEscapeAttr : Str → Str
  | [] => []
  | c :: rest =>
    (if c = '<' then ['&', 'l', 't', ';']
     else if c = '>' then ['&', 'g', 't', ';']
     else if c = '&' then ['&', 'a', 'm', 'p', ';']
     else if c = '"' then ['&', 'q', 'u', 'o', 't', ';']
     else [c]) ++ xmlEscapeAttr rest

/-- Model of `truncate_safe` (`message.rs` lines 65-75): the longest
prefix that fits in `budget` UTF-8 bytes, never splitting a character. -/
def truncateBytes : Str → Nat → Str
  | [], _ => []
  | c :: rest, budget =>
    if c.utf8Size ≤ budget then c :: truncateBytes rest (budget - c.utf8Size) else []

/-- Fuelled digit extraction: `n + 1` fuel always suffices since the
quotient chain by 10 strictly decreases. -/
def natCharsAux : Nat → Nat → Str
  | 0, _ => []
  | fuel + 1, n =>
    if n < 10 then [Nat.digitChar n]
    else natCharsAux fuel (n / 10) ++ [Nat.digitChar (n % 10)]

/-- Decimal digit string of a natural number, as Rust `Display` for
unsigned integers renders it. -/
def natChars (n : Nat) : Str := natCharsAux (n + 1) n

/-- Decimal rendering of an `i64`, as the `{}` interpolations of
`format!` render the numeric fields. -/
def intChars (i : Int) : Str :=
  if i < 0 then '-' :: natChars i.natAbs else natChars i.natAbs

/-- The quoted-reply text after the length gate of `format`
(`message.rs` lines 91-95): texts longer than 200 bytes are truncated at
a char boundary and get a `...` suffix. -/
def quoteText (r : ReplyTo) : Str :=
  if utf8Len r.text > maxQuoteLength
  then truncateBytes r.text maxQuoteLength ++ "...".data
  else r.text

/-- The `<reply ...>...</reply>` fragment of `format`
(`message.rs` lines 96-101); empty when the message quotes nothing. -/
def replyPart : Option ReplyTo → Str
  | none => []
  | some r =>
    "<reply id=\"".data ++ intChars r.message_id
      ++ "\" from=\"".data ++ xmlEscapeAttr r.username
      ++ "\">".data ++ xmlEscape (quoteText r)
      ++ "</reply>".data

/-- Model of `ChatMessage::format` (`message.rs` lines 89-116). -/
def formatMsg (m : ChatMessage) : Str :=
  "<msg id=\"".data ++ intChars m.message_id
    ++ "\" chat=\"".data ++ intChars m.chat_id
    ++ "\" user=\"".data ++ intChars m.user_id
    ++ "\" name=\"".data ++ xmlEscapeAttr m.username
    ++ "\" time=\"".data ++ xmlEscapeAttr m.timestamp
    ++ "\">".data ++ replyPart m.reply_to
    ++ xmlEscape m.text ++ "</msg>".data

/-! Escape-soundness vocabulary: a segment is entity-disciplined when it
holds no raw angle bracket and every ampersand begins one of the four
entity references the formatter emits. -/

/-- A character that needs no escaping anywhere in the frame. -/
def plainChar (c : Char) : Bool :=
  !(c = '<' || c = '>' || c = '&' || c = '"')

/-- Every character of the segment is plain. -/
def plainStr (s : Str) : Bool := s.all plainChar

/-- Entity discipline: no raw '<' or '>', and every '&' immediately
starts one of the entities `&lt; &gt; &amp; &quot;`. -/
def entOK : Str → Bool
  | [] => true
  | c :: rest =>
    if c = '<' then false
    else if c = '>' then false
    else if c = '&' then
      (strStartsWith rest "lt;".data && entOK (rest.drop 3))
        || (strStartsWith rest "gt;".data && entOK (rest.drop 3))
        || (strStartsWith rest "amp;".data && entOK (rest.drop 4))
        || (strStartsWith rest "quot;".data && entOK (rest.drop 5))
    else entOK rest
termination_by s => s.length
decreasing_by
  all_goals simp only [List.length_drop, List.length_cons]
  all_goals omega

/-- The segment holds no raw double quote. -/
def noQuote (s : Str) : Bool := s.all (fun c => !(c = '"'))

/-- Discipline required of attribute-value segments: entity-disciplined
and quote-free. -/
def attrOK (s : Str) : Bool := entOK s && noQuote s

/-! ## Archive and engine intake (`src/chatbot/database.rs`, `context.rs`,
`engine.rs` lines 211-238)

The SQLite tables become in-memory lists; `INSERT OR REPLACE` keyed on the
primary key becomes filter-and-append. -/

/-- A row of the `users` table (`database.rs` lines 95-103). -/
structure UserRow where
  user_id : Int
  username : Str
  first_name : Str
  join_date : Str
  last_message_date : Option Str
  message_count : Nat
  status : Str
deriving DecidableEq, Repr

/-- State of the SQLite archive: the `messages` and `users` tables
(reminders are modelled separately for the scheduler claims). -/
structure DbState where
  messages : List ChatMessage
  users : List UserRow
deriving DecidableEq, Repr

/-- The `users` upsert performed by `Database::add_message`
(`database.rs` lines 225-236): create the row on first sight, otherwise
bump `message_count`, refresh `username` and `last_message_date`. -/
def usersUpsert (users : List UserRow) (msg : ChatMessage) : List UserRow :=
  if users.any (fun u => u.user_id == msg.user_id) then
    users.map (fun u =>
      if u.user_id == msg.user_id then
        { u with username := msg.username,
                 last_message_date := some msg.timestamp,
                 message_count := u.message_count + 1 }
      else u)
  else
    users ++ [{ user_id := msg.user_id, username := msg.username,
                first_name := msg.username, join_date := msg.timestamp,
                last_message_date := some msg.timestamp,
                message_count := 1, status := "member".data }]

/-- Model of `Database::add_message` (`database.rs` lines 221-252):
users upsert, then `INSERT OR REPLACE` into `messages` keyed on
`message_id`. -/
def dbAddMessage (db : DbState) (msg : ChatMessage) : DbState :=
  { messages := db.messages.filter (fun m => !(m.message_id == msg.message_id)) ++ [msg],
    users := usersUpsert db.users msg }

/-- In-memory state owned by the dispatch engine: Context Buffer (in
insertion order, later inserts shadow earlier ones with the same id),
Archive, and the Pending Batch (`engine.rs` lines 86-95). -/
structure EngineState where
  context : List ChatMessage
  db : DbState
  pending : List ChatMessage
deriving DecidableEq, Repr

/-- Model of `ChatbotEngine::handle_message` (`engine.rs` lines 211-238):
append to Context Buffer, Archive and Pending Batch, then signal the
debouncer (eventless here). -/
def handleMessage (st : EngineState) (msg : ChatMessage) : EngineState :=
  { context := st.context ++ [msg],
    db := dbAddMessage st.db msg,
    pending := st.pending ++ [msg] }

/-- Lookup in the Context Buffer (`context.rs` lines 30-50): the index is
a hash map whose inserts overwrite, so the last message added with a
given id wins. -/
def ctxGetMessage (ctx : List ChatMessage) (id : Int) : Option ChatMessage :=
  ctx.reverse.find? (fun m => m.message_id == id)

/-! ## Moderation pipeline (`src/main.rs` lines 378-446)

The handler fragment that runs for a group message in an allowed group,
after text/caption extraction.  The external LLM classifier call is an
oracle (`Except` outcome of `classify`), the prefilter regex lists are
boolean matchers, and the Telegram enforcement calls are recorded as
actions. -/

/-- The moderation-relevant configuration fields (`config.rs`). -/
structure ModConfig where
  spamPatterns : List (Str → Bool)
  safePatterns : List (Str → Bool)
  maxStrikes : Nat
  dryRun : Bool

/-- Telegram-visible actions taken by `handle_new_message` on the
moderation path, plus the engine intake call. -/
inductive ModAction
  | deleteMessage (chat_id message_id : Int)
  | dryRunDelete (chat_id message_id : Int)
  | ban (chat_id user_id : Int)
  | dryRunBan (user_id : Int)
  | intake (msg : ChatMessage)
deriving DecidableEq, Repr

/-- The spam decision of `handle_new_message` (`main.rs` lines 379-415):
bypass for owners/trusted channels, prefilter, then the LLM classifier
for ambiguous texts; classifier errors count as not-spam. -/
def modDecision (cfg : ModConfig) (bypass : Bool) (text : Option Str)
    (cls : Except Str Classification) : Bool :=
  match text with
  | none => false
  | some t =>
    if bypass then false
    else
      match prefilter cfg.spamPatterns cfg.safePatterns t with
      | .ObviousSpam => true
      | .ObviousSafe => false
      | .Ambiguous =>
        match cls with
        | .ok .Spam => true
        | .ok .NotSpam => false
        | .error _ => false

/-- Model of the enforcement-or-forward tail of `handle_new_message`
(`main.rs` lines 417-478): on spam, delete (or dry-run log), add a
strike, ban at the ceiling, and return without engine intake; otherwise
hand the message to the chatbot engine when one is running. -/
def handleGroupMessage (cfg : ModConfig) (engineEnabled : Bool)
    (st : EngineState) (strikes : Int → Nat) (msg : ChatMessage)
    (text : Option Str) (bypass : Bool) (cls : Except Str Classification) :
    List ModAction × EngineState × (Int → Nat) :=
  if modDecision cfg bypass text cls then
    let delAct := if cfg.dryRun then ModAction.dryRunDelete msg.chat_id msg.message_id
                  else ModAction.deleteMessage msg.chat_id msg.message_id
    let strikes2 := fun u => if u = msg.user_id then strikes u + 1 else strikes u
    let banActs := if cfg.maxStrikes ≤ strikes msg.user_id + 1 then
                     [if cfg.dryRun then ModAction.dryRunBan msg.user_id
                      else ModAction.ban msg.chat_id msg.user_id]
                   else []
    (delAct :: banActs, st, strikes2)
  else
    if engineEnabled then ([ModAction.intake msg], handleMessage st msg, strikes)
    else ([], st, strikes)

/-! ## send_message reply validation (`engine.rs` lines 678-746) and
mute_user clamping (`engine.rs` lines 836-856) -/

/-- Image bytes plus MIME type, as shipped around by the engine. -/
abbrev Img := List Nat × Str

/-- The argument record of a delivered `TelegramClient::send_message`. -/
structure TgSendCall where
  chat_id : Int
  text : Str
  reply_to : Option Int
deriving DecidableEq, Repr

/-- Reply-target validation of `execute_send_message` (`engine.rs` lines
691-705): a reply id found in the Context Buffer under a different chat
is dropped; an id not in the buffer is passed through for Telegram to
decide. -/
def validatedReply (ctx : List ChatMessage) (chat_id : Int)
    (reply_to_message_id : Option Int) : Option Int :=
  match reply_to_message_id with
  | some reply_id =>
    match ctxGetMessage ctx reply_id with
    | some orig => if orig.chat_id = chat_id then some reply_id else none
    | none => some reply_id
  | none => none

/-- Model of `execute_send_message` (`engine.rs` lines 678-746): validate
the reply target, deliver, then record the bot's own message (with the
fresh id `msg_id` the transport returned) into Context Buffer and
Archive. -/
def executeSendMessage (botUserId : Int) (st : EngineState) (chat_id : Int)
    (text : Str) (reply_to_message_id : Option Int) (msg_id : Int)
    (nowHM : Str) : TgSendCall × EngineState :=
  let validated := validatedReply st.context chat_id reply_to_message_id
  let call : TgSendCall := { chat_id := chat_id, text := text, reply_to := validated }
  let reply_to :=
    match validated with
    | some reply_id =>
      (ctxGetMessage st.context reply_id).map (fun orig =>
        { message_id := reply_id, username := orig.username,
          text := orig.text : ReplyTo })
    | none => none
  let botMsg : ChatMessage :=
    { message_id := msg_id, chat_id := chat_id, user_id := botUserId,
      username := "Claudima".data, timestamp := nowHM, text := text,
      reply_to := reply_to }
  (call, { context := st.context ++ [botMsg],
           db := dbAddMessage st.db botMsg,
           pending := st.pending })

/-- The argument record of a delivered `TelegramClient::mute_user`. -/
structure MuteCall where
  chat_id : Int
  user_id : Int
  duration : Int
deriving DecidableEq, Repr

/-- Model of `i64::clamp(lo, hi)`. -/
def clampI64 (x lo hi : Int) : Int :=
  if x < lo then lo else if hi < x then hi else x

/-- Model of `execute_mute_user` (`engine.rs` lines 836-856): clamp the
duration to 1-1440 minutes, deliver the mute, notify the owner (whose
send result is discarded by the source), and return an action-tool
result.  `tg` is the transport oracle for the mute call. -/
def executeMuteUser (chat_id user_id duration_minutes : Int)
    (tg : MuteCall → Except Str Unit) : MuteCall × Except Str (Option Str) :=
  let duration := clampI64 duration_minutes 1 1440
  let call : MuteCall := { chat_id := chat_id, user_id := user_id, duration := duration }
  (call, match tg call with
         | .ok _ => .ok none
         | .error e => .error e)

/-! ## Memory tools (`engine.rs` lines 1021-1260)

Paths are strings joined with `/`; the filesystem is an oracle
(`FsOracle` answers the existence and canonicalization queries the code
makes) and every mutating call the code issues is recorded as an
`FsWrite` event. -/

/-- Mutating filesystem calls issued by the memory tools. -/
inductive FsWrite
  | createDirAll (p : Str)
  | writeFile (p : Str) (content : Str)
  | removeFile (p : Str)
deriving DecidableEq, Repr

/-- Oracle for the filesystem queries of `resolve_memory_path`. -/
structure FsOracle where
  parentExists : Bool
  createParent : Except Str Unit
  canonParent : Except Str Str
  canonMemories : Except Str Str
  canonMemoriesRetry : Except Str Str

/-- Everything before the final `/` of a path (`Path::parent`). -/
def parentPath (p : Str) : Str :=
  ((p.reverse.dropWhile (fun c => !(c == '/'))).drop 1).reverse

/-- Model of `resolve_memory_path` (`engine.rs` lines 1024-1065).  The
three string checks (`..`, absolute, empty) run before any filesystem
interaction; afterwards the parent directory is created if missing and
the canonicalized parent must stay under the canonicalized `memories/`
root (with the source's create-and-retry fallback when `memories/` does
not yet exist). -/
def resolveMemoryPath (dataDir : Option Str) (rel : Str) (fs : FsOracle) :
    Except Str Str × List FsWrite :=
  match dataDir with
  | none => (.error "No data_dir configured - memories disabled".data, [])
  | some d =>
    let memoriesDir := d ++ "/memories".data
    if strContains rel "..".data then
      (.error "Path cannot contain ..".data, [])
    else if strStartsWith rel "/".data || strStartsWith rel "\\".data then
      (.error "Path must be relative".data, [])
    else if rel.isEmpty then
      (.error "Path cannot be empty".data, [])
    else
      let fullPath := memoriesDir ++ "/".data ++ rel
      let parent := parentPath fullPath
      let (mkErr, evs1) :=
        if fs.parentExists then (none, [])
        else
          match fs.createParent with
          | .ok _ => (none, [FsWrite.createDirAll parent])
          | .error e => (some ("Failed to create directory: ".data ++ e),
                         [FsWrite.createDirAll parent])
      match mkErr with
      | some e => (.error e, evs1)
      | none =>
        match fs.canonParent with
        | .error e => (.error ("Failed to resolve path: ".data ++ e), evs1)
        | .ok canonicalParent =>
          let (canonicalMemories, evs2) :=
            match fs.canonMemories with
            | .ok c => (c, [])
            | .error _ =>
              (match fs.canonMemoriesRetry with
               | .ok c => c
               | .error _ => memoriesDir,
               [FsWrite.createDirAll memoriesDir])
          if strStartsWith canonicalParent canonicalMemories then
            (.ok fullPath, evs1 ++ evs2)
          else
            (.error "Path must be within memories directory".data, evs1 ++ evs2)

/-- Model of `execute_create_memory` (`engine.rs` lines 1067-1084). -/
def executeCreateMemory (dataDir : Option Str) (path content : Str)
    (fs : FsOracle) (fileExists : Bool) (writeResult : Except Str Unit) :
    Except Str (Option Str) × List FsWrite :=
  match resolveMemoryPath dataDir path fs with
  | (.error e, evs) => (.error e, evs)
  | (.ok fullPath, evs) =>
    if fileExists then
      (.error ("File already exists: ".data ++ path
        ++ ". Use edit_memory to modify.".data), evs)
    else
      match writeResult with
      | .ok _ => (.ok none, evs ++ [FsWrite.writeFile fullPath content])
      | .error e => (.error ("Failed to write file: ".data ++ e),
                     evs ++ [FsWrite.writeFile fullPath content])

/-- Pad with spaces on the left to the given display width (`{:>5}`). -/
def padLeftSpaces (w : Nat) (s : Str) : Str :=
  List.replicate (w - s.length) ' ' ++ s

/-- Split on newline characters. -/
def splitNl : Str → List Str
  | [] => [[]]
  | c :: rest =>
    if c = '\n' then [] :: splitNl rest
    else
      match splitNl rest with
      | [] => [[c]]
      | l :: ls => (c :: l) :: ls

/-- Model of `str::lines` (no trailing empty line). -/
def rustLines (s : Str) : List Str :=
  let p := splitNl s
  if p.getLast? = some [] then p.dropLast else p

/-- Join strings with a separator (`[..].join(sep)`). -/
def strJoin (sep : Str) : List Str → Str
  | [] => []
  | [x] => x
  | x :: xs => x ++ sep ++ strJoin sep xs

/-- The line-numbered rendering produced by `execute_read_memory`
(`engine.rs` lines 1105-1110). -/
def numberLines (content : Str) : Str :=
  strJoin "\n".data ((rustLines content).enum.map
    (fun p => padLeftSpaces 5 (natChars (p.1 + 1)) ++ ['→'] ++ p.2))

/-- Model of `execute_read_memory` (`engine.rs` lines 1086-1113); also
returns the files-read set extended on success. -/
def executeReadMemory (dataDir : Option Str) (path : Str) (fs : FsOracle)
    (fileExists : Bool) (readResult : Except Str Str) (filesRead : List Str) :
    Except Str (Option Str) × List FsWrite × List Str :=
  match resolveMemoryPath dataDir path fs with
  | (.error e, evs) => (.error e, evs, filesRead)
  | (.ok _, evs) =>
    if !fileExists then
      (.error ("File not found: ".data ++ path), evs, filesRead)
    else
      match readResult with
      | .error e => (.error ("Failed to read file: ".data ++ e), evs, filesRead)
      | .ok content =>
        (.ok (some (numberLines content)), evs, filesRead ++ [path])

/-- Non-overlapping occurrence count for a non-empty needle. -/
def countOccur (needle : Str) : Str → Nat
  | [] => 0
  | h :: t =>
    if strStartsWith (h :: t) needle then
      1 + countOccur needle (t.drop (needle.length - 1))
    else countOccur needle t
termination_by s => s.length
decreasing_by
  all_goals simp only [List.length_drop, List.length_cons]
  all_goals omega

/-- Model of `content.matches(old).count()` (Rust counts `len+1` empty
matches for an empty pattern). -/
def countMatches (hay needle : Str) : Nat :=
  if needle.isEmpty then hay.length + 1 else countOccur needle hay

/-- Replace occurrences of a non-empty needle, left to right; an empty
needle only reaches this code when the content is empty, where Rust's
`replace` yields the replacement alone. -/
def strReplace (needle repl : Str) : Str → Str
  | [] => if needle.isEmpty then repl else []
  | h :: t =>
    if strStartsWith (h :: t) needle && !needle.isEmpty then
      repl ++ strReplace needle repl (t.drop (needle.length - 1))
    else h :: strReplace needle repl t
termination_by s => s.length
decreasing_by
  all_goals simp only [List.length_drop, List.length_cons]
  all_goals omega

/-- Model of `execute_edit_memory` (`engine.rs` lines 1115-1151): the
files-read gate precedes path resolution; the old string must occur
exactly once. -/
def executeEditMemory (dataDir : Option Str) (path oldString newString : Str)
    (filesRead : List Str) (fs : FsOracle) (fileExists : Bool)
    (readResult : Except Str Str) (writeResult : Except Str Unit) :
    Except Str (Option Str) × List FsWrite :=
  if !(filesRead.contains path) then
    (.error ("Must read_memory the file before editing: ".data ++ path), [])
  else
    match resolveMemoryPath dataDir path fs with
    | (.error e, evs) => (.error e, evs)
    | (.ok fullPath, evs) =>
      if !fileExists then (.error ("File not found: ".data ++ path), evs)
      else
        match readResult with
        | .error e => (.error ("Failed to read file: ".data ++ e), evs)
        | .ok content =>
          let count := countMatches content oldString
          if count = 0 then
            (.error "old_string not found in file. Make sure it matches exactly.".data, evs)
          else if 1 < count then
            (.error ("old_string found ".data ++ natChars count
              ++ " times. Must be unique.".data), evs)
          else
            let newContent := strReplace oldString newString content
            match writeResult with
            | .ok _ => (.ok none, evs ++ [FsWrite.writeFile fullPath newContent])
            | .error e => (.error ("Failed to write file: ".data ++ e),
                           evs ++ [FsWrite.writeFile fullPath newContent])

/-- Lexicographic string order (byte order of valid UTF-8 equals
code-point order). -/
def strLe : Str → Str → Bool
  | [], _ => true
  | _ :: _, [] => false
  | x :: xs, y :: ys => if x = y then strLe xs ys else decide (x.val < y.val)

/-- Insertion step of the entry sort in `execute_list_memories`. -/
def insertSorted (x : Str) : List Str → List Str
  | [] => [x]
  | y :: ys => if strLe x y then x :: y :: ys else y :: insertSorted x ys

/-- Sort strings ascending (`entries.sort()`). -/
def sortStrs (l : List Str) : List Str := l.foldr insertSorted []

/-- Model of `execute_list_memories` (`engine.rs` lines 1153-1187).  The
directory listing is the oracle `dirEntries` (name, is-directory); with
no subpath the `memories/` root is created when missing. -/
def executeListMemories (dataDir : Option Str) (subpath : Option Str)
    (fs : FsOracle) (memoriesExists : Bool) (createMemories : Except Str Unit)
    (targetIsDir : Bool) (dirEntries : Except Str (List (Str × Bool))) :
    Except Str (Option Str) × List FsWrite :=
  match dataDir with
  | none => (.error "No data_dir configured - memories disabled".data, [])
  | some d =>
    let memoriesDir := d ++ "/memories".data
    let resolved : Except Str Str × List FsWrite :=
      match subpath with
      | some sub => resolveMemoryPath (some d) sub fs
      | none =>
        if !memoriesExists then
          match createMemories with
          | .ok _ => (.ok memoriesDir, [FsWrite.createDirAll memoriesDir])
          | .error e => (.error ("Failed to create memories directory: ".data ++ e),
                         [FsWrite.createDirAll memoriesDir])
        else (.ok memoriesDir, [])
    match resolved with
    | (.error e, evs) => (.error e, evs)
    | (.ok _, evs) =>
      if !targetIsDir then
        (.error ("Not a directory: ".data
          ++ (match subpath with | some s => s | none => ".".data)), evs)
      else
        match dirEntries with
        | .error e => (.error ("Failed to read directory: ".data ++ e), evs)
        | .ok entries =>
          let names := entries.map (fun p => if p.2 then p.1 ++ "/".data else p.1)
          (.ok (some (strJoin "\n".data (sortStrs names))), evs)

/-- Model of `execute_search_memories` (`engine.rs` lines 1189-1239).
The recursive walk is flattened into the oracle `files` (path relative
to `memories/`, content); matching lines are reported as
`path:line:text`. -/
def executeSearchMemories (dataDir : Option Str) (pattern : Str)
    (subpath : Option Str) (fs : FsOracle) (memoriesExists : Bool)
    (files : List (Str × Str)) : Except Str (Option Str) × List FsWrite :=
  match dataDir with
  | none => (.error "No data_dir configured - memories disabled".data, [])
  | some d =>
    let searchDir : Except Str Str × List FsWrite :=
      match subpath with
      | some sub => resolveMemoryPath (some d) sub fs
      | none =>
        if !memoriesExists then (.error "".data, [])
        else (.ok (d ++ "/memories".data), [])
    match subpath, memoriesExists with
    | none, false => (.ok (some "No memories directory yet".data), [])
    | _, _ =>
      match searchDir with
      | (.error e, evs) => (.error e, evs)
      | (.ok _, evs) =>
        let results := files.flatMap (fun f =>
          ((rustLines f.2).enum.filter (fun p => strContains p.2 pattern)).map
            (fun p => f.1 ++ ":".data ++ natChars (p.1 + 1) ++ ":".data ++ p.2))
        if results.isEmpty then (.ok (some "No matches found".data), evs)
        else (.ok (some (strJoin "\n".data results)), evs)

/-- Model of `execute_delete_memory` (`engine.rs` lines 1241-1260):
files only, never directories. -/
def executeDeleteMemory (dataDir : Option Str) (path : Str) (fs : FsOracle)
    (fileExists : Bool) (targetIsDir : Bool) (removeResult : Except Str Unit) :
    Except Str (Option Str) × List FsWrite :=
  match resolveMemoryPath dataDir path fs with
  | (.error e, evs) => (.error e, evs)
  | (.ok fullPath, evs) =>
    if !fileExists then (.error ("File not found: ".data ++ path), evs)
    else if targetIsDir then
      (.error "Cannot delete directories. Delete files individually.".data, evs)
    else
      match removeResult with
      | .ok _ => (.ok none, evs ++ [FsWrite.removeFile fullPath])
      | .error e => (.error ("Failed to delete file: ".data ++ e),
                     evs ++ [FsWrite.removeFile fullPath])

/-- The string checks of `resolve_memory_path` that reject a relative
path outright: a `..` substring, a leading `/` or `\`, or emptiness. -/
def pathRejected (rel : Str) : Bool :=
  strContains rel "..".data || strStartsWith rel "/".data
    || strStartsWith rel "\\".data || rel.isEmpty

/-! ## Read-only SQL surface (`src/chatbot/database.rs` lines 310-377)

The statement engine (SQLite prepare/step) is an oracle: on success it
yields the column names and the result rows.  Preparing and fetching are
recorded as `DbOp` events; the guards must fire before either occurs. -/

/-- A SQLite column value as `rusqlite::types::Value`.  A `REAL` column
carries its `f64` display rendering (floating point itself is not
modelled). -/
inductive SqlValue
  | null
  | integer (n : Int)
  | real (display : Str)
  | text (s : Str)
  | blob (len : Nat)
deriving DecidableEq, Repr

/-- Statement-engine interactions of `Database::query`. -/
inductive DbOp
  | prepare (sql : Str)
  | readRow
deriving DecidableEq, Repr

/-- The forbidden keyword list of `Database::query` (`database.rs`
line 322), in check order. -/
def forbiddenSqlKeywords : List Str :=
  ["INSERT".data, "UPDATE".data, "DELETE".data, "DROP".data,
   "ALTER".data, "CREATE".data, "ATTACH".data, "DETACH".data]

/-- Rendering of one column value (`database.rs` lines 350-365). -/
def renderSqlValue : SqlValue → Str
  | .null => "NULL".data
  | .integer n => intChars n
  | .real d => d
  | .text s => if 100 < s.length then s.take 100 ++ "...".data else s
  | .blob n => "<blob ".data ++ natChars n ++ " bytes>".data

/-- Rendering of one row: `name: value` cells joined by a bar
(`database.rs` lines 348-368). -/
def renderSqlRow (cols : List Str) (row : List SqlValue) : Str :=
  strJoin " | ".data ((cols.zip row).map
    (fun p => p.1 ++ ": ".data ++ renderSqlValue p.2))

/-- Model of `Database::query` (`database.rs` lines 312-377): the
`SELECT` prefix check and the forbidden-keyword scan run on the trimmed,
uppercased statement before the statement is prepared; results are
capped at 100 rows. -/
def dbQuery (sql : Str)
    (engine : Except Str (List Str × List (List SqlValue))) :
    Except Str Str × List DbOp :=
  let sqlTrimmed := strTrim sql
  let sqlUpper := strUpper sqlTrimmed
  if !(strStartsWith sqlUpper "SELECT".data) then
    (.error "Only SELECT queries are allowed".data, [])
  else
    match forbiddenSqlKeywords.find? (fun k => strContains sqlUpper k) with
    | some k => (.error ("Query contains forbidden keyword: ".data ++ k), [])
    | none =>
      match engine with
      | .error e => (.error ("Query error: ".data ++ e), [DbOp.prepare sqlTrimmed])
      | .ok (cols, rows) =>
        let shown := rows.take 100
        let lines := shown.map (renderSqlRow cols)
        let reads := List.replicate (min rows.length 101) DbOp.readRow
        let results :=
          if 100 < rows.length then
            lines ++ ["... (truncated, showing first 100 rows)".data]
          else lines
        let out :=
          if results.isEmpty then "No results".data
          else natChars shown.length ++ " row(s):\n".data ++ strJoin "\n".data results
        (.ok out, DbOp.prepare sqlTrimmed :: reads)

/-- The rejection condition of `Database::query`, as the spec quantifies
it: not a `SELECT`, or any forbidden keyword occurs. -/
def sqlRejected (sql : Str) : Bool :=
  !(strStartsWith (strUpper (strTrim sql)) "SELECT".data)
    || forbiddenSqlKeywords.any (fun k => strContains (strUpper (strTrim sql)) k)

/-! ## Scheduler reminder loop (`engine.rs` lines 1580-1635,
`database.rs` lines 630-680, `reminders.rs`)

Timestamps are integers; the cron crate is the oracle `cronNext`
(`next_cron_trigger`), the Telegram transport the oracle `sendOk`. -/

/-- A reminder row (`reminders.rs` lines 8-19). -/
structure Reminder where
  id : Int
  chat_id : Int
  user_id : Int
  message : Str
  trigger_at : Int
  repeat_cron : Option Str
  created_at : Int
  last_triggered_at : Option Int
  active : Bool
deriving DecidableEq, Repr

/-- Insertion step for ordering due reminders by `trigger_at`
(the `ORDER BY trigger_at ASC` of `get_due_reminders`). -/
def insertByTrigger (r : Reminder) : List Reminder → List Reminder
  | [] => [r]
  | x :: xs => if r.trigger_at ≤ x.trigger_at then r :: x :: xs else x :: insertByTrigger r xs

/-- Sort reminders ascending by `trigger_at`. -/
def sortByTrigger (l : List Reminder) : List Reminder := l.foldr insertByTrigger []

/-- Model of `Database::get_due_reminders` (`database.rs` lines 630-655):
active rows with `trigger_at ≤ now`, in `trigger_at` order. -/
def getDueReminders (db : List Reminder) (now : Int) : List Reminder :=
  sortByTrigger (db.filter (fun r => r.active && decide (r.trigger_at ≤ now)))

/-- The per-row update a firing reminder applies to the table
(`database.rs` lines 657-680 driven by `engine.rs` lines 1608-1631):
`reschedule_reminder` on a successful cron evaluation, otherwise
`mark_reminder_completed`. -/
def fireUpdate (cronNext : Str → Int → Except Str Int) (now : Int)
    (rem : Reminder) (row : Reminder) : Reminder :=
  if row.id = rem.id then
    match rem.repeat_cron with
    | some cron =>
      match cronNext cron now with
      | .ok next => { row with trigger_at := next, last_triggered_at := some now }
      | .error _ => { row with active := false, last_triggered_at := some now }
    | none => { row with active := false, last_triggered_at := some now }
  else row

/-- Transport events of the reminder loop. -/
inductive RemEvent
  | sendReminder (chat_id : Int) (message : Str) (delivered : Bool)
deriving DecidableEq, Repr

/-- Model of `check_reminders` (`engine.rs` lines 1581-1635): fire every
due reminder in `trigger_at` order (delivery failures do not stop the
loop), rescheduling recurring rows in place and retiring one-shot rows
and recurring rows whose cron evaluation failed. -/
def checkReminders (db : List Reminder) (now : Int)
    (cronNext : Str → Int → Except Str Int) (sendOk : Int → Bool) :
    List Reminder × List RemEvent :=
  let due := getDueReminders db now
  (due.foldl (fun d rem => d.map (fireUpdate cronNext now rem)) db,
   due.map (fun rem => RemEvent.sendReminder rem.chat_id rem.message (sendOk rem.id)))

/-! ## Dispatch loop and compaction recovery (`engine.rs` lines 308-503)

The Reasoner Bridge is an oracle list: each `send_*` call consumes the
next `Response`; an exhausted list models bridge-transport failure (the
`?` on every bridge call).  Tool execution is the pure oracle `exec`;
every bridge send and every tool execution is recorded in order as a
`TurnEvent`. -/

/-- Maximum tool-call iterations (`MAX_ITERATIONS`, `engine.rs` line 22). -/
def maxIterations : Nat := 10

/-- Token budget for context restoration (`COMPACTION_RESTORE_TOKENS`,
`engine.rs` line 25). -/
def compactionRestoreTokens : Nat := 10000

/-- Tool-intent vocabulary (`tools.rs`).  `process_messages`
distinguishes only the `done` sentinel and hands every other intent to
`execute_tool`, whose per-tool bodies are modelled individually above;
the remaining variants of the Rust enum are collapsed into `other`. -/
inductive ToolCall
  | sendMessage (chat_id : Int) (text : Str) (reply_to_message_id : Option Int)
  | muteUser (chat_id user_id duration_minutes : Int)
  | noop
  | done
  | other (name : Str)
deriving DecidableEq, Repr

/-- A tool intent with its use id (`claude_code.rs`). -/
structure ToolCallWithId where
  id : Str
  call : ToolCall
deriving DecidableEq, Repr

/-- A tool execution result as `engine.rs` consumes it: optional text,
error flag, optional image. -/
structure ToolResult where
  tool_use_id : Str
  content : Option Str
  is_error : Bool
  image : Option Img
deriving DecidableEq, Repr

/-- A bridge response: ordered tool intents plus the compaction flag. -/
structure Response where
  tool_calls : List ToolCallWithId
  compacted : Bool
deriving DecidableEq, Repr

/-- Payloads the engine sends to the bridge. -/
inductive Payload
  | batch (content : Str) (image : Option Img)
  | restore (content : Str)
  | toolResults (results : List ToolResult)
  | imageFollowup (image : Img)
deriving DecidableEq, Repr

/-- The ordered trace of a dispatch turn: bridge sends and tool
executions. -/
inductive TurnEvent
  | bridgeSend (p : Payload)
  | toolExec (tc : ToolCallWithId)
deriving DecidableEq, Repr

/-- The neutral result recorded for the `done` sentinel
(`engine.rs` lines 422-429). -/
def neutralResult (id : Str) : ToolResult :=
  { tool_use_id := id, content := none, is_error := false, image := none }

/-- The synthetic error fed back when a response carries no tool calls
(`engine.rs` lines 401-414). -/
def errFeedbackResult : ToolResult :=
  { tool_use_id := "error".data,
    content := some "ERROR: You must call at least one tool. Use the done tool when you have nothing more to do.".data,
    is_error := true, image := none }

/-- Model of `format_messages` (`engine.rs` lines 496-503). -/
def formatMessages (messages : List ChatMessage) : Str :=
  "New messages:\n\n".data ++ messages.flatMap (fun m => formatMsg m ++ ['\n'])

/-- Greedy budget scan of `get_recent_by_tokens` (`database.rs` lines
297-304): keep taking rows while the running character total fits; the
first row is always taken. -/
def takeByBudget (budget : Nat) : List ChatMessage → Nat → Bool → List ChatMessage
  | [], _, _ => []
  | m :: rest, total, nonempty =>
    let mc := utf8Len (formatMsg m)
    if budget < total + mc && nonempty then []
    else m :: takeByBudget budget rest (total + mc) true

/-- Model of `Database::get_recent_by_tokens` (`database.rs` lines
262-308): rows arrive in reverse timestamp order (`rowsDesc`), the
budget is `max_tokens * 4` characters, and the result is flipped back to
chronological order. -/
def getRecentByTokens (rowsDesc : List ChatMessage) (maxTokens : Nat) :
    List ChatMessage :=
  (takeByBudget (maxTokens * 4) rowsDesc 0 false).reverse

/-- The batch-stage restoration payload (`engine.rs` lines 341-381):
header, then the persistent memory `README.md` when it exists, then the
recent messages when there are any. -/
def restoreContent (readme : Option Str) (recent : List ChatMessage) : Str :=
  let base := "Context was compacted.\n\n".data
  let withReadme :=
    match readme with
    | some r => base ++ "## Your Persistent Memory (memories/README.md)\n\n".data
                  ++ r ++ "\n\n".data
    | none => base
  if recent.isEmpty then withReadme
  else withReadme ++ "## Recent Messages (".data ++ natChars recent.length
         ++ " messages)\n\n".data ++ strJoin "\n".data (recent.map formatMsg)

/-- The in-loop restoration payload sent after tool results
(`engine.rs` lines 471-488); it carries no `README.md` section. -/
def restoreContent2 (recent : List ChatMessage) : Str :=
  "Context was compacted. Here are the most recent ".data
    ++ natChars recent.length ++ " messages:\n\n".data
    ++ strJoin "\n".data (recent.map formatMsg)

/-- The image follow-up turns after tool results (`engine.rs` lines
462-469): each extracted image is sent in its own bridge turn, the last
response winning. -/
def sendFollowups (images : List Img) (resp : Response)
    (bridge : List Response) :
    List TurnEvent × Option (Response × List Response) :=
  match images with
  | [] => ([], some (resp, bridge))
  | img :: more =>
    match bridge with
    | [] => ([], none)
    | r :: rest =>
      let (evs, st) := sendFollowups more r rest
      (TurnEvent.bridgeSend (.imageFollowup img) :: evs, st)

/-- The tool-call loop of `process_messages` (`engine.rs` lines
397-489), fuelled by the iteration cap: empty responses get the
synthetic error feedback; `done` records a neutral result; a clean
`done` (no errors, no contents, no images) exits; otherwise results are
sent back, result images are sent as follow-up turns, and an in-loop
compaction triggers the second restoration payload. -/
def toolLoop (exec : ToolCallWithId → ToolResult) (recent : List ChatMessage) :
    Nat → Response → List Response → List TurnEvent × Except Str Unit
  | 0, _, _ => ([], .ok ())
  | fuel + 1, resp, bridge =>
    if resp.tool_calls.isEmpty then
      match bridge with
      | [] => ([], .error "transport".data)
      | r :: rest =>
        let (evs, out) := toolLoop exec recent fuel r rest
        (TurnEvent.bridgeSend (.toolResults [errFeedbackResult]) :: evs, out)
    else
      let hasDone := resp.tool_calls.any (fun tc => tc.call == ToolCall.done)
      let results := resp.tool_calls.map (fun tc =>
        if tc.call == ToolCall.done then neutralResult tc.id else exec tc)
      let execEvents := (resp.tool_calls.filter
        (fun tc => !(tc.call == ToolCall.done))).map TurnEvent.toolExec
      let hasError := results.any (fun r => r.is_error)
      let hasResults := results.any (fun r => r.content.isSome)
      let hasImages := results.any (fun r => r.image.isSome)
      if hasDone && !hasError && !hasResults && !hasImages then
        (execEvents, .ok ())
      else
        let images := results.filterMap (fun r => r.image)
        match bridge with
        | [] => (execEvents, .error "transport".data)
        | r :: rest =>
          let sendEv := TurnEvent.bridgeSend (.toolResults results)
          match sendFollowups images r rest with
          | (fevs, none) => (execEvents ++ sendEv :: fevs, .error "transport".data)
          | (fevs, some (r2, rest2)) =>
            if r2.compacted && !recent.isEmpty then
              match rest2 with
              | [] => (execEvents ++ sendEv :: fevs, .error "transport".data)
              | r3 :: rest3 =>
                let (evs, out) := toolLoop exec recent fuel r3 rest3
                (execEvents ++ sendEv :: fevs
                   ++ TurnEvent.bridgeSend (.restore (restoreContent2 recent)) :: evs, out)
            else
              let (evs, out) := toolLoop exec recent fuel r2 rest2
              (execEvents ++ sendEv :: fevs ++ evs, out)

/-- The first payload of a dispatch turn (`engine.rs` lines 317-339):
the formatted batch, combined with the label of the first image among
the batch messages when one exists. -/
def initialBatchPayload (messages : List ChatMessage)
    (batchImage : Option (Str × Img)) : Payload :=
  let content := formatMessages messages
  match batchImage with
  | some li => .batch (content ++ "\n\n".data ++ li.1) (some li.2)
  | none => .batch content none

/-- Model of `process_messages` (`engine.rs` lines 309-493): send the
batch; on a compacted response build the restoration payload and, when
it exceeds 30 bytes, send it as an additional turn whose response then
drives the tool loop; otherwise the tool loop runs on the response in
hand. -/
def processMessages (readme : Option Str) (archiveDesc : List ChatMessage)
    (messages : List ChatMessage) (batchImage : Option (Str × Img))
    (exec : ToolCallWithId → ToolResult) (bridge : List Response) :
    List TurnEvent × Except Str Unit :=
  let recent := getRecentByTokens archiveDesc compactionRestoreTokens
  let p0 := initialBatchPayload messages batchImage
  match bridge with
  | [] => ([], .error "transport".data)
  | r0 :: rest =>
    let ev0 := TurnEvent.bridgeSend p0
    if r0.compacted then
      let rc := restoreContent readme recent
      if 30 < utf8Len rc then
        match rest with
        | [] => ([ev0], .error "transport".data)
        | r1 :: rest2 =>
          let (evs, out) := toolLoop exec recent maxIterations r1 rest2
          (ev0 :: TurnEvent.bridgeSend (.restore rc) :: evs, out)
      else
        let (evs, out) := toolLoop exec recent maxIterations r0 rest
        (ev0 :: evs, out)
    else
      let (evs, out) := toolLoop exec recent maxIterations r0 rest
      (ev0 :: evs, out)

/-- Escape discipline of the segments a quoted reply contributes to the
frame: plain digits for the id, attribute discipline for the author,
entity discipline for the (possibly truncated) quote. -/
def replySegsOK : Option ReplyTo → Bool
  | none => true
  | some r =>
    plainStr (intChars r.message_id) && attrOK (xmlEscapeAttr r.username)
      && entOK (xmlEscape (quoteText r))

/-- Whether an `Except` is an error. -/
def exceptIsError {ε α : Type} : Except ε α → Bool
  | .error _ => true
  | .ok _ => false

/-! ## Escape soundness lemmas -/

theorem entOK_cons_ne {c : Char} (h1 : c ≠ '<') (h2 : c ≠ '>') (h3 : c ≠ '&')
    (s : Str) : entOK (c :: s) = entOK s := by
  rw [entOK, if_neg h1, if_neg h2, if_neg h3]

theorem entOK_lt (x : Str) : entOK ('&' :: 'l' :: 't' :: ';' :: x) = entOK x := by
  rw [entOK]
  simp [strStartsWith]

theorem entOK_gt (x : Str) : entOK ('&' :: 'g' :: 't' :: ';' :: x) = entOK x := by
  rw [entOK]
  simp [strStartsWith]

theorem entOK_amp (x : Str) : entOK ('&' :: 'a' :: 'm' :: 'p' :: ';' :: x) = entOK x := by
  rw [entOK]
  simp [strStartsWith]

theorem entOK_quot (x : Str) : entOK ('&' :: 'q' :: 'u' :: 'o' :: 't' :: ';' :: x) = entOK x := by
  rw [entOK]
  simp [strStartsWith]

theorem entOK_xmlEscape_append (s t : Str) :
    entOK (xmlEscape s ++ t) = entOK t := by
  induction s with
  | nil => rfl
  | cons c cs ih =>
    by_cases h1 : c = '<'
    · subst h1
      show entOK ('&' :: 'l' :: 't' :: ';' :: (xmlEscape cs ++ t)) = entOK t
      rw [entOK_lt]; exact ih
    · by_cases h2 : c = '>'
      · subst h2
        show entOK ('&' :: 'g' :: 't' :: ';' :: (xmlEscape cs ++ t)) = entOK t
        rw [entOK_gt]; exact ih
      · by_cases h3 : c = '&'
        · subst h3
          show entOK ('&' :: 'a' :: 'm' :: 'p' :: ';' :: (xmlEscape cs ++ t)) = entOK t
          rw [entOK_amp]; exact ih
        · rw [show xmlEscape (c :: cs) ++ t = c :: (xmlEscape cs ++ t) from by
            simp [xmlEscape, h1, h2, h3]]
          rw [entOK_cons_ne h1 h2 h3]; exact ih

theorem entOK_xmlEscapeAttr_append (s t : Str) :
    entOK (xmlEscapeAttr s ++ t) = entOK t := by
  induction s with
  | nil => rfl
  | cons c cs ih =>
    by_cases h1 : c = '<'
    · subst h1
      show entOK ('&' :: 'l' :: 't' :: ';' :: (xmlEscapeAttr cs ++ t)) = entOK t
      rw [entOK_lt]; exact ih
    · by_cases h2 : c = '>'
      · subst h2
        show entOK ('&' :: 'g' :: 't' :: ';' :: (xmlEscapeAttr cs ++ t)) = entOK t
        rw [entOK_gt]; exact ih
      · by_cases h3 : c = '&'
        · subst h3
          show entOK ('&' :: 'a' :: 'm' :: 'p' :: ';' :: (xmlEscapeAttr cs ++ t)) = entOK t
          rw [entOK_amp]; exact ih
        · by_cases h4 : c = '"'
          · subst h4
            show entOK ('&' :: 'q' :: 'u' :: 'o' :: 't' :: ';' :: (xmlEscapeAttr cs ++ t))
              = entOK t
            rw [entOK_quot]; exact ih
          · rw [show xmlEscapeAttr (c :: cs) ++ t = c :: (xmlEscapeAttr cs ++ t) from by
              simp [xmlEscapeAttr, h1, h2, h3, h4]]
            rw [entOK_cons_ne h1 h2 h3]; exact ih

theorem entOK_nil : entOK [] = true := by rw [entOK]

theorem entOK_xmlEscape (s : Str) : entOK (xmlEscape s) = true := by
  have h := entOK_xmlEscape_append s []
  simpa [entOK_nil] using h

theorem entOK_xmlEscapeAttr (s : Str) : entOK (xmlEscapeAttr s) = true := by
  have h := entOK_xmlEscapeAttr_append s []
  simpa [entOK_nil] using h

theorem noQuote_xmlEscapeAttr (s : Str) : noQuote (xmlEscapeAttr s) = true := by
  induction s with
  | nil => rfl
  | cons c cs ih =>
    by_cases h1 : c = '<'
    · subst h1; simpa [xmlEscapeAttr, noQuote] using ih
    · by_cases h2 : c = '>'
      · subst h2; simpa [xmlEscapeAttr, noQuote] using ih
      · by_cases h3 : c = '&'
        · subst h3; simpa [xmlEscapeAttr, noQuote] using ih
        · by_cases h4 : c = '"'
          · subst h4; simpa [xmlEscapeAttr, noQuote] using ih
          · simp only [xmlEscapeAttr, if_neg h1, if_neg h2, if_neg h3, if_neg h4]
            simpa [noQuote, h4] using ih

theorem attrOK_xmlEscapeAttr (s : Str) : attrOK (xmlEscapeAttr s) = true := by
  simp [attrOK, entOK_xmlEscapeAttr, noQuote_xmlEscapeAttr]

theorem plainChar_digitChar (n : Nat) : plainChar (Nat.digitChar n) = true := by
  by_cases h : n < 16
  · interval_cases n <;> decide
  · have h2 : Nat.digitChar n = '*' := by
      unfold Nat.digitChar
      repeat rw [if_neg (by omega)]
    rw [h2]; decide

theorem plainStr_natCharsAux (fuel n : Nat) :
    plainStr (natCharsAux fuel n) = true := by
  induction fuel generalizing n with
  | zero => rfl
  | succ fuel ih =>
    unfold natCharsAux
    split
    · simp [plainStr, plainChar_digitChar]
    · have hrec := ih (n / 10)
      simp only [plainStr, List.all_append, List.all_cons, List.all_nil] at hrec ⊢
      simp [hrec, plainChar_digitChar]

theorem plainStr_natChars (n : Nat) : plainStr (natChars n) = true :=
  plainStr_natCharsAux (n + 1) n

theorem plainStr_intChars (i : Int) : plainStr (intChars i) = true := by
  have hn := plainStr_natChars i.natAbs
  have hdash : plainChar '-' = true := by decide
  unfold intChars
  split
  · simp only [plainStr, List.all_cons] at hn ⊢
    simp [hdash, hn]
  · exact hn

/-- C2: in `ChatMessage::format` the raw `< >` characters occur only in
the fixed tag fragments the formatter itself emits (made explicit by the
decomposition equation), while every interpolated segment is
entity-disciplined: the numeric attributes are plain digit strings, the
username / timestamp / reply-author attribute values are additionally
quote-free, and the body and quoted-reply text have no raw `< >` and
only entity-starting `&`. -/
theorem format_escape_sound (m : ChatMessage) :
    formatMsg m =
      "<msg id=\"".data ++ intChars m.message_id
        ++ "\" chat=\"".data ++ intChars m.chat_id
        ++ "\" user=\"".data ++ intChars m.user_id
        ++ "\" name=\"".data ++ xmlEscapeAttr m.username
        ++ "\" time=\"".data ++ xmlEscapeAttr m.timestamp
        ++ "\">".data ++ replyPart m.reply_to
        ++ xmlEscape m.text ++ "</msg>".data
    ∧ plainStr (intChars m.message_id) = true
    ∧ plainStr (intChars m.chat_id) = true
    ∧ plainStr (intChars m.user_id) = true
    ∧ attrOK (xmlEscapeAttr m.username) = true
    ∧ attrOK (xmlEscapeAttr m.timestamp) = true
    ∧ entOK (xmlEscape m.text) = true
    ∧ replySegsOK m.reply_to = true := by
  refine ⟨rfl, plainStr_intChars _, plainStr_intChars _, plainStr_intChars _,
    attrOK_xmlEscapeAttr _, attrOK_xmlEscapeAttr _, entOK_xmlEscape _, ?_⟩
  cases m.reply_to with
  | none => rfl
  | some r =>
    simp [replySegsOK, plainStr_intChars, attrOK_xmlEscapeAttr, entOK_xmlEscape]

/-- C7 counterexample: sixteen two-byte characters form a text shorter
than 30 characters that contains no magic string and matches no spam
pattern, yet the prefilter (which measures `str::len`, i.e. UTF-8
bytes) classifies it Ambiguous, not obvious-safe. -/
theorem prefilter_short_chars_refuted :
    (List.replicate 16 'é').length < 30
    ∧ strContains (List.replicate 16 'é') magicString = false
    ∧ prefilter [] [] (List.replicate 16 'é') = PrefilterResult.Ambiguous := by
  refine ⟨by decide, by decide, by decide⟩

/-- C7 amended: for every message text shorter than 30 UTF-8 bytes that
does not contain the magic string and matches no configured spam
pattern, the prefilter returns obvious-safe, whatever the safe-pattern
list contains. -/
theorem prefilter_short_bytes_obvious_safe
    (spamPatterns safePatterns : List (Str → Bool)) (text : Str)
    (hlen : utf8Len text < 30)
    (hmagic : strContains text magicString = false)
    (hspam : ∀ p ∈ spamPatterns, p text = false) :
    prefilter spamPatterns safePatterns text = PrefilterResult.ObviousSafe := by
  have hs : spamPatterns.any (fun p => p text) = false := by
    rw [List.any_eq_false]
    intro p hp
    simp [hspam p hp]
  unfold prefilter
  rw [hmagic, hs]
  by_cases hsafe : safePatterns.any (fun p => p text) = true
  · simp [hsafe]
  · simp [hsafe, hlen]

/-- Witness for the amended C7 theorem at a concrete input. -/
theorem prefilter_short_bytes_obvious_safe_witness :
    utf8Len "ok".data < 30
    ∧ prefilter [] [] "ok".data = PrefilterResult.ObviousSafe :=
  ⟨by decide, prefilter_short_bytes_obvious_safe [] [] "ok".data (by decide)
    (by decide) (by intro p hp; exact absurd hp (List.not_mem_nil p))⟩

/-- C1: a group message the pipeline classifies as spam (prefilter
obvious-spam, or prefilter ambiguous and the classifier answering spam)
never reaches the engine: the engine state (Context Buffer, Archive
messages table, Pending Batch) is untouched, no intake action occurs,
and the handler performs the enforcement (delete or dry-run log, strike
increment) before returning. -/
theorem spam_never_reaches_engine
    (cfg : ModConfig) (en : Bool) (st : EngineState) (strikes : Int → Nat)
    (msg : ChatMessage) (t : Str) (cls : Except Str Classification)
    (hspam : prefilter cfg.spamPatterns cfg.safePatterns t = PrefilterResult.ObviousSpam
      ∨ (prefilter cfg.spamPatterns cfg.safePatterns t = PrefilterResult.Ambiguous
          ∧ cls = .ok Classification.Spam)) :
    (handleGroupMessage cfg en st strikes msg (some t) false cls).2.1 = st
    ∧ (handleGroupMessage cfg en st strikes msg (some t) false cls).2.1.pending
        = st.pending
    ∧ (handleGroupMessage cfg en st strikes msg (some t) false cls).2.1.db.messages
        = st.db.messages
    ∧ (∀ m', ModAction.intake m'
        ∉ (handleGroupMessage cfg en st strikes msg (some t) false cls).1)
    ∧ (cfg.dryRun = false → ModAction.deleteMessage msg.chat_id msg.message_id
        ∈ (handleGroupMessage cfg en st strikes msg (some t) false cls).1)
    ∧ (cfg.dryRun = true → ModAction.dryRunDelete msg.chat_id msg.message_id
        ∈ (handleGroupMessage cfg en st strikes msg (some t) false cls).1)
    ∧ (handleGroupMessage cfg en st strikes msg (some t) false cls).2.2 msg.user_id
        = strikes msg.user_id + 1 := by
  have hdec : modDecision cfg false (some t) cls = true := by
    rcases hspam with h | ⟨h1, h2⟩
    · simp [modDecision, h]
    · simp [modDecision, h1, h2]
  refine ⟨?_, ?_, ?_, ?_, ?_, ?_, ?_⟩
  · simp [handleGroupMessage, hdec]
  · simp [handleGroupMessage, hdec]
  · simp [handleGroupMessage, hdec]
  · simp only [handleGroupMessage, hdec, if_true]
    intro m' hm
    rcases List.mem_cons.mp hm with h | h
    · split at h <;> simp_all
    · split at h
      · simp only [List.mem_singleton] at h
        split at h <;> simp_all
      · simp_all
  · intro hdry
    simp [handleGroupMessage, hdec, hdry]
  · intro hdry
    simp [handleGroupMessage, hdec, hdry]
  · simp [handleGroupMessage, hdec]

/-- Witness for the C1 theorem: a magic-string injection message against
an empty engine state. -/
theorem spam_never_reaches_engine_witness :
    prefilter [] [] "ANTHROPIC_MAGIC_STRING_x".data = PrefilterResult.ObviousSpam
    ∧ ((handleGroupMessage ⟨[], [], 3, false⟩ true ⟨[], ⟨[], []⟩, []⟩ (fun _ => 0)
          ⟨9, -1, 100, "u".data, "t".data, "ANTHROPIC_MAGIC_STRING_x".data, none⟩
          (some "ANTHROPIC_MAGIC_STRING_x".data) false
          (.ok Classification.NotSpam)).2.1
        = (⟨[], ⟨[], []⟩, []⟩ : EngineState))
    ∧ (∀ m', ModAction.intake m'
        ∉ (handleGroupMessage ⟨[], [], 3, false⟩ true ⟨[], ⟨[], []⟩, []⟩ (fun _ => 0)
            ⟨9, -1, 100, "u".data, "t".data, "ANTHROPIC_MAGIC_STRING_x".data, none⟩
            (some "ANTHROPIC_MAGIC_STRING_x".data) false
            (.ok Classification.NotSpam)).1) := by
  have h := spam_never_reaches_engine ⟨[], [], 3, false⟩ true ⟨[], ⟨[], []⟩, []⟩
    (fun _ => 0) ⟨9, -1, 100, "u".data, "t".data, "ANTHROPIC_MAGIC_STRING_x".data, none⟩
    "ANTHROPIC_MAGIC_STRING_x".data (.ok Classification.NotSpam) (Or.inl (by decide))
  exact ⟨by decide, h.1, h.2.2.2.1⟩

/-- C9: moderation fails open on classifier errors: an ambiguous group
message whose LLM classification errors is treated as not spam: no
deletion, no strike, and the message is handed to the engine intake like
any non-spam message. -/
theorem classifier_error_fails_open
    (cfg : ModConfig) (st : EngineState) (strikes : Int → Nat)
    (msg : ChatMessage) (t : Str) (e : Str)
    (hamb : prefilter cfg.spamPatterns cfg.safePatterns t = PrefilterResult.Ambiguous) :
    handleGroupMessage cfg true st strikes msg (some t) false (.error e)
      = ([ModAction.intake msg], handleMessage st msg, strikes) := by
  have hdec : modDecision cfg false (some t) (.error e) = false := by
    simp [modDecision, hamb]
  simp [handleGroupMessage, hdec]

/-- Witness for the C9 theorem: a 30-byte ambiguous text and a failing
classifier produce exactly the intake transition. -/
theorem classifier_error_fails_open_witness :
    prefilter [] [] (List.replicate 30 'a') = PrefilterResult.Ambiguous
    ∧ handleGroupMessage ⟨[], [], 3, false⟩ true ⟨[], ⟨[], []⟩, []⟩ (fun _ => 0)
        ⟨9, -1, 100, "u".data, "t".data, List.replicate 30 'a', none⟩
        (some (List.replicate 30 'a')) false (.error "down".data)
      = ([ModAction.intake ⟨9, -1, 100, "u".data, "t".data, List.replicate 30 'a', none⟩],
         handleMessage ⟨[], ⟨[], []⟩, []⟩
           ⟨9, -1, 100, "u".data, "t".data, List.replicate 30 'a', none⟩,
         fun _ => 0) :=
  ⟨by decide, classifier_error_fails_open ⟨[], [], 3, false⟩ ⟨[], ⟨[], []⟩, []⟩
    (fun _ => 0) ⟨9, -1, 100, "u".data, "t".data, List.replicate 30 'a', none⟩
    (List.replicate 30 'a') "down".data (by decide)⟩

/-- C6 counterexample: with an empty Context Buffer the delivered send
still carries the provided reply id 5, although the buffer contains no
message with that id (the source passes unknown ids through for
Telegram to decide). -/
theorem send_reply_validation_refuted :
    (executeSendMessage 0 ⟨[], ⟨[], []⟩, []⟩ 1 "hi".data (some 5) 42 "10:00".data).1.reply_to
      = some 5
    ∧ ctxGetMessage (⟨[], ⟨[], []⟩, []⟩ : EngineState).context 5 = none := by
  exact ⟨rfl, rfl⟩

/-- C6 amended: the delivered send carries a provided reply id exactly
when the Context Buffer either does not contain the id at all or
contains it with a matching chat; the hint is dropped exactly when the
buffer holds that id under a different chat.  The delivered call's reply
field is the validation's result. -/
theorem send_reply_validation_characterized
    (ctx : List ChatMessage) (chat_id rid : Int) :
    (validatedReply ctx chat_id (some rid) = some rid
      ↔ (ctxGetMessage ctx rid = none
          ∨ ∃ m, ctxGetMessage ctx rid = some m ∧ m.chat_id = chat_id))
    ∧ (validatedReply ctx chat_id (some rid) = none
      ↔ ∃ m, ctxGetMessage ctx rid = some m ∧ m.chat_id ≠ chat_id)
    ∧ (∀ (botUserId : Int) (st : EngineState) (text : Str) (msg_id : Int) (nowHM : Str),
        (executeSendMessage botUserId st chat_id text (some rid) msg_id nowHM).1.reply_to
          = validatedReply st.context chat_id (some rid)) := by
  refine ⟨?_, ?_, fun _ _ _ _ _ => rfl⟩
  · unfold validatedReply
    cases h : ctxGetMessage ctx rid with
    | none => simp [h]
    | some m => by_cases hc : m.chat_id = chat_id <;> simp [h, hc]
  · unfold validatedReply
    cases h : ctxGetMessage ctx rid with
    | none => simp [h]
    | some m => by_cases hc : m.chat_id = chat_id <;> simp [h, hc]

/-- Bounds of the i64 clamp. -/
theorem clampI64_mem (x lo hi : Int) (h : lo ≤ hi) :
    lo ≤ clampI64 x lo hi ∧ clampI64 x lo hi ≤ hi := by
  unfold clampI64
  split
  · omega
  · split <;> omega

/-- C10: `mute_user` never rejects an out-of-range duration: for every
requested `duration_minutes` the delivered mute carries
`clamp(duration_minutes, 1, 1440)`, which always lies in [1, 1440], and
the tool result errs only when the transport does. -/
theorem mute_duration_clamped
    (chat_id user_id duration_minutes : Int) (tg : MuteCall → Except Str Unit) :
    (executeMuteUser chat_id user_id duration_minutes tg).1.duration
      = clampI64 duration_minutes 1 1440
    ∧ 1 ≤ (executeMuteUser chat_id user_id duration_minutes tg).1.duration
    ∧ (executeMuteUser chat_id user_id duration_minutes tg).1.duration ≤ 1440
    ∧ ((executeMuteUser chat_id user_id duration_minutes tg).2 = .ok none
        ∨ ∃ e, tg (executeMuteUser chat_id user_id duration_minutes tg).1 = .error e
            ∧ (executeMuteUser chat_id user_id duration_minutes tg).2 = .error e) := by
  have hb := clampI64_mem duration_minutes 1 1440 (by omega)
  refine ⟨rfl, hb.1, hb.2, ?_⟩
  cases htg : tg (executeMuteUser chat_id user_id duration_minutes tg).1 with
  | ok u => left; simp [executeMuteUser] at htg ⊢; rw [htg]
  | error e => right; exact ⟨e, rfl, by simp [executeMuteUser] at htg ⊢; rw [htg]⟩

/-- A rejected relative path makes `resolve_memory_path` fail before any
filesystem interaction. -/
theorem resolveMemoryPath_rejected (dataDir : Option Str) (rel : Str)
    (fs : FsOracle) (h : pathRejected rel = true) :
    exceptIsError (resolveMemoryPath dataDir rel fs).1 = true
    ∧ (resolveMemoryPath dataDir rel fs).2 = [] := by
  unfold resolveMemoryPath
  cases dataDir with
  | none => exact ⟨rfl, rfl⟩
  | some d =>
    by_cases hc : strContains rel "..".data = true
    · simp [hc, exceptIsError]
    · by_cases hs : (strStartsWith rel "/".data || strStartsWith rel "\\".data) = true
      · simp [hc, hs, exceptIsError]
      · by_cases he : rel.isEmpty = true
        · simp [hc, hs, he, exceptIsError]
        · exfalso
          unfold pathRejected at h
          simp only [Bool.or_eq_true] at h hs
          rcases h with ((h | h) | h) | h <;> simp_all

/-- C4: every memory-tool invocation whose relative path contains `..`,
starts with `/` or `\`, or is empty returns an error and performs no
filesystem mutation: the string checks precede any directory creation,
write or removal in all six tools (for `edit_memory` the files-read gate
may reject first, equally without effects). -/
theorem memory_tools_path_rejected (rel : Str) (h : pathRejected rel = true)
    (dataDir : Option Str) (fs : FsOracle) (content oldString newString pattern : Str)
    (fileExists targetIsDir memoriesExists : Bool)
    (writeResult removeResult createMemories : Except Str Unit)
    (readResult : Except Str Str) (filesRead : List Str)
    (dirEntries : Except Str (List (Str × Bool))) (files : List (Str × Str)) :
    (exceptIsError (executeCreateMemory dataDir rel content fs fileExists writeResult).1 = true
      ∧ (executeCreateMemory dataDir rel content fs fileExists writeResult).2 = [])
    ∧ (exceptIsError (executeReadMemory dataDir rel fs fileExists readResult filesRead).1 = true
      ∧ (executeReadMemory dataDir rel fs fileExists readResult filesRead).2.1 = []
      ∧ (executeReadMemory dataDir rel fs fileExists readResult filesRead).2.2 = filesRead)
    ∧ (exceptIsError (executeEditMemory dataDir rel oldString newString filesRead fs
          fileExists readResult writeResult).1 = true
      ∧ (executeEditMemory dataDir rel oldString newString filesRead fs
          fileExists readResult writeResult).2 = [])
    ∧ (exceptIsError (executeListMemories dataDir (some rel) fs memoriesExists
          createMemories targetIsDir dirEntries).1 = true
      ∧ (executeListMemories dataDir (some rel) fs memoriesExists
          createMemories targetIsDir dirEntries).2 = [])
    ∧ (exceptIsError (executeSearchMemories dataDir pattern (some rel) fs
          memoriesExists files).1 = true
      ∧ (executeSearchMemories dataDir pattern (some rel) fs memoriesExists files).2 = [])
    ∧ (exceptIsError (executeDeleteMemory dataDir rel fs fileExists targetIsDir
          removeResult).1 = true
      ∧ (executeDeleteMemory dataDir rel fs fileExists targetIsDir removeResult).2 = []) := by
  have hres := resolveMemoryPath_rejected dataDir rel fs h
  rcases hre : resolveMemoryPath dataDir rel fs with ⟨res, evs⟩
  rw [hre] at hres
  cases res with
  | ok p => simp [exceptIsError] at hres
  | error e =>
    obtain ⟨-, hevs⟩ := hres
    subst hevs
    refine ⟨?_, ?_, ?_, ?_, ?_, ?_⟩
    · simp [executeCreateMemory, hre, exceptIsError]
    · simp [executeReadMemory, hre, exceptIsError]
    · by_cases hr : rel ∈ filesRead
      · simp [executeEditMemory, hr, hre, exceptIsError]
      · simp [executeEditMemory, hr, exceptIsError]
    · cases dataDir with
      | none => simp [executeListMemories, exceptIsError]
      | some d => simp [executeListMemories, hre, exceptIsError]
    · cases dataDir with
      | none => simp [executeSearchMemories, exceptIsError]
      | some d => simp [executeSearchMemories, hre, exceptIsError]
    · simp [executeDeleteMemory, hre, exceptIsError]

/-- Witness for the C4 theorem: the path `../secret` is rejected by
every memory tool without any filesystem effect. -/
theorem memory_tools_path_rejected_witness :
    pathRejected "../secret".data = true
    ∧ exceptIsError (executeCreateMemory (some "data".data) "../secret".data
        "x".data ⟨true, .ok (), .ok "p".data, .ok "m".data, .ok "m".data⟩
        false (.ok ())).1 = true
    ∧ (executeCreateMemory (some "data".data) "../secret".data
        "x".data ⟨true, .ok (), .ok "p".data, .ok "m".data, .ok "m".data⟩
        false (.ok ())).2 = [] := by
  have h := memory_tools_path_rejected "../secret".data (by decide)
    (some "data".data) ⟨true, .ok (), .ok "p".data, .ok "m".data, .ok "m".data⟩
    "x".data "o".data "n".data "pat".data false false false
    (.ok ()) (.ok ()) (.ok ()) (.ok "c".data) [] (.ok []) []
  exact ⟨by decide, h.1.1, h.1.2⟩

/-- C5: every `query(sql)` call whose trimmed statement does not start
with `SELECT` (case-insensitively) or whose uppercased trimmed statement
contains a forbidden keyword returns an error with no statement-engine
interaction: no statement is prepared and no row is read. -/
theorem sql_rejected_no_read (sql : Str)
    (engine : Except Str (List Str × List (List SqlValue)))
    (h : sqlRejected sql = true) :
    exceptIsError (dbQuery sql engine).1 = true
    ∧ (dbQuery sql engine).2 = [] := by
  unfold dbQuery
  by_cases hsel : strStartsWith (strUpper (strTrim sql)) "SELECT".data = true
  · have hkw : forbiddenSqlKeywords.any
        (fun k => strContains (strUpper (strTrim sql)) k) = true := by
      unfold sqlRejected at h
      simp only [hsel, Bool.not_true, Bool.false_or] at h
      exact h
    obtain ⟨k, hk, hck⟩ := List.any_eq_true.mp hkw
    have hfind : (forbiddenSqlKeywords.find?
        (fun k => strContains (strUpper (strTrim sql)) k)).isSome := by
      rw [List.find?_isSome]
      exact ⟨k, hk, hck⟩
    obtain ⟨k2, hk2⟩ := Option.isSome_iff_exists.mp hfind
    simp [hsel, hk2, exceptIsError]
  · simp [hsel, exceptIsError]

/-- Witness for the C5 theorem: a `SELECT` statement smuggling a
`DELETE` is rejected with no prepare and no row read. -/
theorem sql_rejected_no_read_witness :
    sqlRejected "SELECT 1; DELETE FROM messages".data = true
    ∧ exceptIsError (dbQuery "SELECT 1; DELETE FROM messages".data
        (.ok (["c".data], [[SqlValue.integer 1]]))).1 = true
    ∧ (dbQuery "SELECT 1; DELETE FROM messages".data
        (.ok (["c".data], [[SqlValue.integer 1]]))).2 = [] := by
  have h := sql_rejected_no_read "SELECT 1; DELETE FROM messages".data
    (.ok (["c".data], [[SqlValue.integer 1]])) (by decide)
  exact ⟨by decide, h.1, h.2⟩

/-! ## Reminder loop lemmas -/

theorem fireUpdate_id (cn : Str → Int → Except Str Int) (now : Int)
    (rem row : Reminder) : (fireUpdate cn now rem row).id = row.id := by
  unfold fireUpdate
  repeat' split
  all_goals rfl

theorem fireUpdate_ne (cn : Str → Int → Except Str Int) (now : Int)
    (rem row : Reminder) (h : ¬row.id = rem.id) :
    fireUpdate cn now rem row = row := by
  unfold fireUpdate
  rw [if_neg h]

theorem foldl_fire_id (cn : Str → Int → Except Str Int) (now : Int)
    (L : List Reminder) (row : Reminder) :
    (L.foldl (fun row rem => fireUpdate cn now rem row) row).id = row.id := by
  induction L generalizing row with
  | nil => rfl
  | cons rem L ih =>
    simp only [List.foldl_cons]
    rw [ih, fireUpdate_id]

theorem foldl_fire_skip (cn : Str → Int → Except Str Int) (now : Int)
    (L : List Reminder) (row : Reminder) (h : ∀ rem ∈ L, rem.id ≠ row.id) :
    L.foldl (fun row rem => fireUpdate cn now rem row) row = row := by
  induction L with
  | nil => rfl
  | cons rem L ih =>
    simp only [List.foldl_cons]
    rw [fireUpdate_ne cn now rem row (fun he => h rem (by simp) (by rw [he]))]
    exact ih (fun rem2 hm => h rem2 (List.mem_cons_of_mem rem hm))

theorem foldl_map_exchange {α β : Type} (f : β → α → α) (L : List β) (db : List α) :
    L.foldl (fun d b => d.map (f b)) db
      = db.map (fun a => L.foldl (fun a b => f b a) a) := by
  induction L generalizing db with
  | nil => simp
  | cons b L ih =>
    simp only [List.foldl_cons]
    rw [ih, List.map_map]
    simp [Function.comp]

theorem insertByTrigger_perm (r : Reminder) (l : List Reminder) :
    (insertByTrigger r l).Perm (r :: l) := by
  induction l with
  | nil => exact List.Perm.refl _
  | cons x xs ih =>
    unfold insertByTrigger
    split
    · exact List.Perm.refl _
    · exact (ih.cons x).trans (List.Perm.swap r x xs)

theorem sortByTrigger_perm (l : List Reminder) : (sortByTrigger l).Perm l := by
  induction l with
  | nil => exact List.Perm.refl _
  | cons x xs ih =>
    exact (insertByTrigger_perm x (sortByTrigger xs)).trans (ih.cons x)

theorem mem_getDueReminders (db : List Reminder) (now : Int) (r : Reminder) :
    r ∈ getDueReminders db now
      ↔ r ∈ db ∧ r.active = true ∧ r.trigger_at ≤ now := by
  unfold getDueReminders
  rw [(sortByTrigger_perm _).mem_iff, List.mem_filter]
  simp

theorem due_ids_nodup (db : List Reminder) (now : Int)
    (hnd : (db.map (fun r => r.id)).Nodup) :
    ((getDueReminders db now).map (fun r => r.id)).Nodup := by
  have hperm : ((getDueReminders db now).map (fun r => r.id)).Perm
      ((db.filter (fun r => r.active && decide (r.trigger_at ≤ now))).map
        (fun r => r.id)) :=
    (sortByTrigger_perm _).map _
  refine hperm.nodup_iff.mpr ?_
  exact hnd.sublist ((List.filter_sublist db).map _)

/-- C8: when a due reminder fires, the reminder table is updated
according to its kind: recurring rows get `trigger_at` moved to the cron
occurrence after the current clock (strictly later, given the cron
evaluator only returns future instants) with `active` untouched (hence
still true) and `last_triggered_at := now`; one-shot rows and recurring
rows whose cron evaluation fails are retired (`active := false`,
`last_triggered_at := now`). -/
theorem reminder_fire_semantics
    (db : List Reminder) (now : Int)
    (cronNext : Str → Int → Except Str Int) (sendOk : Int → Bool)
    (hnd : (db.map (fun r => r.id)).Nodup)
    (r : Reminder) (hr : r ∈ getDueReminders db now)
    (hcron : ∀ c t next, cronNext c t = .ok next → t < next) :
    r.active = true
    ∧ ∀ row ∈ (checkReminders db now cronNext sendOk).1, row.id = r.id →
        (∀ c, r.repeat_cron = some c →
          (∀ next, cronNext c now = .ok next →
            row = { r with trigger_at := next, last_triggered_at := some now }
            ∧ row.active = true ∧ now < row.trigger_at)
          ∧ (∀ e, cronNext c now = .error e →
            row = { r with active := false, last_triggered_at := some now }))
        ∧ (r.repeat_cron = none →
          row = { r with active := false, last_triggered_at := some now }) := by
  obtain ⟨hmem, hact, -⟩ := (mem_getDueReminders db now r).mp hr
  refine ⟨hact, ?_⟩
  intro row hrow hid
  have hdue := due_ids_nodup db now hnd
  obtain ⟨l1, l2, hsplit⟩ := List.append_of_mem hr
  -- the final table is a map over the original table
  rw [show (checkReminders db now cronNext sendOk).1
      = db.map (fun a => (getDueReminders db now).foldl
          (fun a b => fireUpdate cronNext now b a) a) from by
    unfold checkReminders
    exact foldl_map_exchange _ _ _] at hrow
  obtain ⟨row0, hrow0, hmap⟩ := List.mem_map.mp hrow
  -- the folded update preserves ids, so row0 is the table row with r.id
  have hid0 : row0.id = r.id := by
    rw [← hid, ← hmap, foldl_fire_id]
  have hrow0r : row0 = r :=
    List.inj_on_of_nodup_map hnd hrow0 hmem hid0
  subst hrow0r
  -- every other due reminder has a different id
  have hids : ∀ rem ∈ l1 ++ l2, rem.id ≠ row0.id := by
    have hperm := hdue
    rw [hsplit] at hperm
    simp only [List.map_append, List.map_cons] at hperm
    intro rem hmemrem heq
    rcases List.mem_append.mp hmemrem with hm | hm
    · obtain ⟨-, -, hdisj⟩ := List.nodup_append.mp hperm
      exact hdisj (heq ▸ List.mem_map_of_mem _ hm) (List.mem_cons_self _ _)
    · obtain ⟨-, h2, -⟩ := List.nodup_append.mp hperm
      rw [List.nodup_cons] at h2
      exact h2.1 (heq ▸ List.mem_map_of_mem _ hm)
  -- fold the due list: only the step for the row itself changes it
  have hfold : (getDueReminders db now).foldl
      (fun a b => fireUpdate cronNext now b a) row0
      = fireUpdate cronNext now row0 row0 := by
    rw [hsplit, List.foldl_append, List.foldl_cons]
    rw [foldl_fire_skip cronNext now l1 row0
      (fun rem hm => hids rem (List.mem_append_left _ hm))]
    rw [foldl_fire_skip cronNext now l2 _
      (fun rem hm => by
        rw [fireUpdate_id]
        exact hids rem (List.mem_append_right _ hm))]
  rw [← hmap, hfold]
  -- case analysis on the reminder kind and the cron outcome
  refine ⟨?_, ?_⟩
  · intro c hc
    refine ⟨?_, ?_⟩
    · intro next hnext
      have hlt := hcron c now next hnext
      have hupd : fireUpdate cronNext now row0 row0
          = { row0 with trigger_at := next, last_triggered_at := some now } := by
        unfold fireUpdate
        simp [hc, hnext]
      rw [hupd]
      exact ⟨rfl, hact, hlt⟩
    · intro e herr
      have hupd : fireUpdate cronNext now row0 row0
          = { row0 with active := false, last_triggered_at := some now } := by
        unfold fireUpdate
        simp [hc, herr]
      rw [hupd]
  · intro hc
    have hupd : fireUpdate cronNext now row0 row0
        = { row0 with active := false, last_triggered_at := some now } := by
      unfold fireUpdate
      simp [hc]
    rw [hupd]

/-- Witness for the C8 theorem: a single due recurring reminder is
rescheduled in place to the cron evaluation result, stays active, and
records the firing time. -/
theorem reminder_fire_semantics_witness :
    (⟨1, -5, 0, "m".data, 100, some "c".data, 0, none, true⟩ : Reminder)
      ∈ getDueReminders [⟨1, -5, 0, "m".data, 100, some "c".data, 0, none, true⟩] 150
    ∧ ∀ row ∈ (checkReminders [⟨1, -5, 0, "m".data, 100, some "c".data, 0, none, true⟩]
        150 (fun _ t => .ok (t + 60)) (fun _ => true)).1,
      row.id = 1 →
        row = (⟨1, -5, 0, "m".data, 210, some "c".data, 0, some 150, true⟩ : Reminder)
        ∧ 150 < row.trigger_at := by
  have h := reminder_fire_semantics
    [⟨1, -5, 0, "m".data, 100, some "c".data, 0, none, true⟩] 150
    (fun _ t => .ok (t + 60)) (fun _ => true) (by decide)
    ⟨1, -5, 0, "m".data, 100, some "c".data, 0, none, true⟩ (by decide)
    (by intro c t next hn; injection hn with h2; omega)
  refine ⟨by decide, ?_⟩
  intro row hrow hid
  have h2 := (h.2 row hrow hid).1 "c".data rfl
  have h3 := h2.1 210 rfl
  exact ⟨by simpa using h3.1, h3.2.2⟩

/-- C3 counterexample: a compacted batch response carrying a
`send_message` intent.  The engine does send the restoration payload,
but the restoration turn's response *replaces* the compacted one, so the
compacted response's `send_message` intent is never executed: the claim
that "the tool intents carried by the compacted response are then
executed after that restoration turn" fails on this input. -/
theorem compaction_claim_refuted :
    (⟨[⟨"1".data, ToolCall.sendMessage (-1) "hi!".data none⟩, ⟨"2".data, ToolCall.done⟩],
        true⟩ : Response).compacted = true
    ∧ (⟨"1".data, ToolCall.sendMessage (-1) "hi!".data none⟩ : ToolCallWithId)
        ∈ (⟨[⟨"1".data, ToolCall.sendMessage (-1) "hi!".data none⟩,
              ⟨"2".data, ToolCall.done⟩], true⟩ : Response).tool_calls
    ∧ TurnEvent.toolExec ⟨"1".data, ToolCall.sendMessage (-1) "hi!".data none⟩
        ∉ (processMessages (some "remember me".data) []
            [⟨9, -1, 100, "u".data, "t".data, "hi".data, none⟩] none
            (fun tc => neutralResult tc.id)
            [⟨[⟨"1".data, ToolCall.sendMessage (-1) "hi!".data none⟩,
               ⟨"2".data, ToolCall.done⟩], true⟩,
             ⟨[⟨"3".data, ToolCall.done⟩], false⟩]).1
    ∧ (processMessages (some "remember me".data) []
        [⟨9, -1, 100, "u".data, "t".data, "hi".data, none⟩] none
        (fun tc => neutralResult tc.id)
        [⟨[⟨"1".data, ToolCall.sendMessage (-1) "hi!".data none⟩,
           ⟨"2".data, ToolCall.done⟩], true⟩,
         ⟨[⟨"3".data, ToolCall.done⟩], false⟩]).2 = .ok () := by
  refine ⟨rfl, by decide, by decide, rfl⟩

/-- C3 amended: when the batch response arrives compacted and the
restoration payload (README.md contents if present, then the most recent
archive messages within the 10000-token budget) is non-trivial (over 30
bytes, i.e. the README exists or there are recent messages), the engine
sends exactly one restoration turn after the batch send and before any
tool execution, and the tool-call loop then runs on the restoration
turn's response: the compacted response's own tool intents are
discarded. -/
theorem compaction_restore_precedes_tools
    (readme : Option Str) (archiveDesc messages : List ChatMessage)
    (batchImage : Option (Str × Img)) (exec : ToolCallWithId → ToolResult)
    (r0 r1 : Response) (rest : List Response)
    (hcomp : r0.compacted = true)
    (hlen : 30 < utf8Len (restoreContent readme
        (getRecentByTokens archiveDesc compactionRestoreTokens))) :
    processMessages readme archiveDesc messages batchImage exec (r0 :: r1 :: rest)
      = (TurnEvent.bridgeSend (initialBatchPayload messages batchImage)
          :: TurnEvent.bridgeSend (.restore (restoreContent readme
              (getRecentByTokens archiveDesc compactionRestoreTokens)))
          :: (toolLoop exec (getRecentByTokens archiveDesc compactionRestoreTokens)
              maxIterations r1 rest).1,
         (toolLoop exec (getRecentByTokens archiveDesc compactionRestoreTokens)
            maxIterations r1 rest).2) := by
  unfold processMessages
  simp [hcomp, hlen]

/-- Witness for the amended C3 theorem at the counterexample's inputs. -/
theorem compaction_restore_precedes_tools_witness :
    30 < utf8Len (restoreContent (some "remember me".data)
        (getRecentByTokens [] compactionRestoreTokens))
    ∧ processMessages (some "remember me".data) []
        [⟨9, -1, 100, "u".data, "t".data, "hi".data, none⟩] none
        (fun tc => neutralResult tc.id)
        [⟨[⟨"1".data, ToolCall.sendMessage (-1) "hi!".data none⟩,
           ⟨"2".data, ToolCall.done⟩], true⟩,
         ⟨[⟨"3".data, ToolCall.done⟩], false⟩]
      = (TurnEvent.bridgeSend (initialBatchPayload
            [⟨9, -1, 100, "u".data, "t".data, "hi".data, none⟩] none)
          :: TurnEvent.bridgeSend (.restore (restoreContent (some "remember me".data)
              (getRecentByTokens [] compactionRestoreTokens)))
          :: (toolLoop (fun tc => neutralResult tc.id)
              (getRecentByTokens [] compactionRestoreTokens) maxIterations
              ⟨[⟨"3".data, ToolCall.done⟩], false⟩ []).1,
         (toolLoop (fun tc => neutralResult tc.id)
            (getRecentByTokens [] compactionRestoreTokens) maxIterations
            ⟨[⟨"3".data, ToolCall.done⟩], false⟩ []).2) :=
  ⟨by decide, compaction_restore_precedes_tools (some "remember me".data) []
    [⟨9, -1, 100, "u".data, "t".data, "hi".data, none⟩] none
    (fun tc => neutralResult tc.id)
    ⟨[⟨"1".data, ToolCall.sendMessage (-1) "hi!".data none⟩,
      ⟨"2".data, ToolCall.done⟩], true⟩
    ⟨[⟨"3".data, ToolCall.done⟩], false⟩ [] rfl (by decide)⟩
